import Mathlib

set_option autoImplicit false

/-!
Verification development for the Felicia storefront server (server.js).

Conventions of the shallow embedding: JS strings are Lean strings, with the
empty string standing for an absent or otherwise falsy field; JS numbers are
rationals, since the code only adds, multiplies and compares them; the JS
Map is an insertion-ordered association list; fallible handlers return sum
types listing their caller-visible outcomes.
-/

namespace Felicia

/-- A JS value sitting in a quantity field of a submitted cart entry:
absent (undefined), non-numeric (Number of it is NaN), or a number. -/
inductive QtyInput where
  | absent
  | nonNumeric
  | num (q : ℚ)
deriving Repr, DecidableEq

/-- Embeds the expression Number(item.quantity) || 1 from the checkout
handler: NaN and 0 are falsy and fall back to 1, while every other number,
negative or fractional included, is kept as is. -/
def coerceQty : QtyInput → ℚ
  | .absent => 1
  | .nonNumeric => 1
  | .num q => if q = 0 then 1 else q

structure Product where
  id : String
  name : String
  category : String
  price : ℚ
  size : String
  color : String
deriving Repr, DecidableEq

structure CartItem where
  productId : String
  quantity : QtyInput
  size : String
  color : String
  /-- A price field the client may send along with the entry; the checkout
  handler never reads it. -/
  clientPrice : ℚ
deriving Repr, DecidableEq

structure CustomerInput where
  name : String
  email : String
  phone : String
  address : String
  city : String
  postalCode : String
  country : String
deriving Repr, DecidableEq

structure OrderItem where
  productId : String
  name : String
  category : String
  price : ℚ
  quantity : ℚ
  size : String
  color : String
  lineTotal : ℚ
deriving Repr, DecidableEq

structure Order where
  id : String
  createdAt : Nat
  total : ℚ
  items : List OrderItem
  customer : CustomerInput
deriving Repr, DecidableEq

/-- Embeds a || b on JS strings, where the empty string is falsy. -/
def orElseStr (a b : String) : String := if a = "" then b else a

/-- Embeds building new Map(products.map((p) => [p.id, p])) and calling get:
a later catalog entry with the same id overwrites an earlier one. -/
def productMapGet (products : List Product) (pid : String) : Option Product :=
  products.foldl (fun acc p => if p.id = pid then some p else acc) none

/-- The denormalized line item pushed by the checkout loop for a resolved
product: catalog name, category and price are captured, the quantity is
coerced, and the line total is the catalog price times that quantity. -/
def mkOrderItem (product : Product) (item : CartItem) : OrderItem :=
  { productId := product.id
    name := product.name
    category := product.category
    price := product.price
    quantity := coerceQty item.quantity
    size := orElseStr item.size (orElseStr product.size "Medium")
    color := orElseStr item.color product.color
    lineTotal := product.price * coerceQty item.quantity }

/-- One iteration of the checkout item loop: resolve the entry against the
catalog, silently skip it when the product is unknown, otherwise accumulate
the line total into the running total and append the line item. -/
def resolveStep (products : List Product) (acc : ℚ × List OrderItem)
    (item : CartItem) : ℚ × List OrderItem :=
  match productMapGet products item.productId with
  | none => acc
  | some product =>
    (acc.1 + (mkOrderItem product item).lineTotal,
     acc.2 ++ [mkOrderItem product item])

/-- The full checkout item loop: running total and resolved line items. -/
def resolveItems (products : List Product) (cartItems : List CartItem) :
    ℚ × List OrderItem :=
  cartItems.foldl (resolveStep products) (0, [])

/-- The customer snapshot embedded in the order: name, email and address are
required and copied as is, the remaining fields default to the empty string
when absent. -/
def snapshotCustomer (c : CustomerInput) : CustomerInput :=
  { name := c.name
    email := c.email
    phone := orElseStr c.phone ""
    address := c.address
    city := orElseStr c.city ""
    postalCode := orElseStr c.postalCode ""
    country := orElseStr c.country "" }

inductive CheckoutResult where
  | emptyCart
  | missingCustomer
  | noValidItems
  | placed (order : Order)
deriving Repr, DecidableEq

/-- The order the checkout handler builds once validation passed: an ORD-
identifier from the millisecond clock, the resolved items and their running
total, and the customer snapshot. -/
def placedOrderOf (products : List Product) (cartItems : List CartItem)
    (customer : CustomerInput) (now : Nat) : Order :=
  { id := "ORD-" ++ toString now
    createdAt := now
    total := (resolveItems products cartItems).1
    items := (resolveItems products cartItems).2
    customer := snapshotCustomer customer }

/-- Embeds the POST /api/checkout handler: validate the cart and the customer
fields, resolve the cart against the catalog, reject when no entry resolved,
otherwise build the order with an ORD- identifier from the current millisecond
clock and append it to the ledger snapshot that was read. -/
def checkout (products : List Product) (cartItems : List CartItem)
    (customer : CustomerInput) (storedOrders : List Order) (now : Nat) :
    CheckoutResult × List Order :=
  if cartItems = [] then (.emptyCart, storedOrders)
  else if customer.name = "" ∨ customer.email = "" ∨ customer.address = "" then
    (.missingCustomer, storedOrders)
  else
    let resolved := resolveItems products cartItems
    if resolved.2 = [] then (.noValidItems, storedOrders)
    else
      (.placed (placedOrderOf products cartItems customer now),
       storedOrders ++ [placedOrderOf products cartItems customer now])

/-- Projects the order out of a placed checkout result. -/
def placedOrder : CheckoutResult → Option Order
  | .placed o => some o
  | _ => none

/-- Quantities stored on the line items of a placed checkout result. -/
def placedQuantities (r : CheckoutResult) : List ℚ :=
  ((placedOrder r).map (fun o => o.items.map OrderItem.quantity)).getD []

/-- One interleaving of two concurrent checkout requests against the same
stored ledger, as the unguarded handler executes them: both requests read the
ledger before either write lands, each write then replaces the whole stored
document with the array held by that writer, so after the first write and then
the second, the stored ledger is exactly what the second writer pushed. -/
def interleavedCheckouts (products : List Product)
    (cartA : List CartItem) (custA : CustomerInput) (nowA : Nat)
    (cartB : List CartItem) (custB : CustomerInput) (nowB : Nat)
    (store0 : List Order) : CheckoutResult × CheckoutResult × List Order :=
  let a := checkout products cartA custA store0 nowA
  let b := checkout products cartB custB store0 nowB
  (a.1, b.1, b.2)

/-! Storage layer: caller-visible outcomes of the two RecordStore
implementations, as functions of what the backing store does. -/

/-- What the backing store does with one write attempt. -/
inductive BackingWrite where
  | ok
  | failed
deriving Repr, DecidableEq

/-- The caller-visible outcome of a store write: normal return, or an error
propagated to the caller. -/
inductive WriteOutcome where
  | success
  | storageFailure
deriving Repr, DecidableEq

/-- Embeds writeJson, the local-file write: the try/catch around
fs.writeFileSync logs a failure and falls through, so the function returns
normally whether or not the backing write failed. -/
def writeJson : BackingWrite → WriteOutcome
  | .ok => .success
  | .failed => .success

/-- Embeds writeBlobJson, the remote-blob write: the catch block logs and
then rethrows, so a backing failure propagates to the caller. -/
def writeBlobJson : BackingWrite → WriteOutcome
  | .ok => .success
  | .failed => .storageFailure

/-- What the backing store yields for one read attempt: no object at the key,
a transport or parse failure, or the stored collection. -/
inductive BackingRead (α : Type) where
  | missing
  | failed
  | content (data : List α)
deriving Repr, DecidableEq

/-- Embeds readJson as used with an array fallback: a missing file and any
read or parse error both yield the fallback collection. -/
def readJson {α : Type} : BackingRead α → List α → List α
  | .missing, fallback => fallback
  | .failed, fallback => fallback
  | .content l, _ => l

/-- Embeds readBlobJson: a missing blob, a non-200 response and any transport
or parse error all yield the fallback collection. -/
def readBlobJson {α : Type} : BackingRead α → List α → List α
  | .missing, fallback => fallback
  | .failed, fallback => fallback
  | .content l, _ => l

/-! Admin directory. -/

structure Admin where
  id : String
  name : String
  email : String
  passwordHash : String
  createdAt : Nat
deriving Repr, DecidableEq

/-- Embeds String.prototype.toLowerCase as used on email addresses: the
character-wise lowercase map. -/
def lowerStr (s : String) : String := String.mk (s.data.map Char.toLower)

inductive SignupResult where
  | missingFields
  | duplicateEmail
  | created (a : Admin)
deriving Repr, DecidableEq

/-- Embeds the POST /api/admin/signup handler: require all three fields,
reject when some existing account has a case-insensitively equal email
without touching the directory, otherwise hash the password, append the
account and write the directory back. -/
def signup (admins : List Admin) (name email password : String)
    (hash : String → String) (now : Nat) : SignupResult × List Admin :=
  if name = "" ∨ email = "" ∨ password = "" then (.missingFields, admins)
  else
    match admins.find? (fun a => lowerStr a.email == lowerStr email) with
    | some _ => (.duplicateEmail, admins)
    | none =>
      let admin : Admin :=
        { id := "admin-" ++ toString now
          name := name
          email := email
          passwordHash := hash password
          createdAt := now }
      (.created admin, admins ++ [admin])

inductive LoginResult where
  | missingFields
  | invalidCredentials
  | success (adminId : String)
deriving Repr, DecidableEq

/-- Embeds the POST /api/admin/login handler: require both fields, look the
account up by case-insensitive email, and answer with the same
invalidCredentials outcome whether the email is unknown or the password hash
comparison fails. -/
def login (admins : List Admin) (email password : String)
    (compareHash : String → String → Bool) : LoginResult :=
  if email = "" ∨ password = "" then .missingFields
  else
    match admins.find? (fun a => lowerStr a.email == lowerStr email) with
    | none => .invalidCredentials
    | some admin =>
      if compareHash password admin.passwordHash then .success admin.id
      else .invalidCredentials

/-! Sync protocol. -/

/-- The two durable collections owned by the persistence gateway. -/
structure GatewayState where
  orders : List Order
  admins : List Admin
deriving Repr, DecidableEq

/-- The body fetched from the export endpoint, before array coercion: none in
a field models a value that is not an array. -/
structure SyncPayload where
  orders : Option (List Order)
  admins : Option (List Admin)
deriving Repr, DecidableEq

inductive ExportResult where
  | unauthorized
  | payload (orders : List Order) (admins : List Admin)
deriving Repr, DecidableEq

/-- Embeds the GET /api/dashboard-sync handler: an unset or empty configured
secret, or a caller secret that is not an exact match, yields Unauthorized;
otherwise the full order ledger and admin directory are served. -/
def dashboardSync (configuredSecret : Option String) (provided : String)
    (orders : List Order) (admins : List Admin) : ExportResult :=
  let secret := configuredSecret.getD ""
  if secret = "" ∨ provided ≠ secret then .unauthorized
  else .payload orders admins

/-- Embeds the Array.isArray coercion applied to each fetched collection. -/
def coerceArray {α : Type} : Option (List α) → List α
  | none => []
  | some l => l

inductive SyncFromProdResult where
  | notLocal
  | notConfigured
  | fetchFailed
  | synced (orderCount adminCount : Nat)
deriving Repr, DecidableEq

/-- Embeds the POST /api/admin/sync-from-production handler after the admin
session check: refuse on the hosted environment, require the configured
origin URL and shared secret, and on a successful fetch overwrite both local
collections in full with the fetched ones. -/
def syncFromProduction (isVercelEnv : Bool) (baseUrl : String)
    (configuredSecret : Option String) (fetched : Option SyncPayload)
    (st : GatewayState) : SyncFromProdResult × GatewayState :=
  if isVercelEnv then (.notLocal, st)
  else if baseUrl = "" ∨ configuredSecret.getD "" = "" then (.notConfigured, st)
  else
    match fetched with
    | none => (.fetchFailed, st)
    | some payload =>
      let orders := coerceArray payload.orders
      let admins := coerceArray payload.admins
      (.synced orders.length admins.length, { orders := orders, admins := admins })

/-! Customer aggregation. -/

structure Customer where
  name : String
  email : String
  phone : String
  address : String
  city : String
  postalCode : String
  country : String
  orders : Nat
  totalSpend : ℚ
deriving Repr, DecidableEq

/-- Embeds order.total || 0 on the model where totals are rationals. -/
def jsOrZero (q : ℚ) : ℚ := if q = 0 then 0 else q

/-- Embeds one back-fill assignment: an empty field takes the incoming value
when that value is non-empty, and a populated field is never overwritten. -/
def backfill (current incoming : String) : String :=
  if current = "" ∧ incoming ≠ "" then incoming else current

/-- The grouping key of an order: its customer email, lowercased; an empty
key means the order is skipped. -/
def emailKey (o : Order) : String := lowerStr o.customer.email

/-- The accumulator entry created when an email is first seen: the fields of
that first order, with zero counters. -/
def freshCustomer (email : String) (o : Order) : Customer :=
  { name := o.customer.name
    email := email
    phone := o.customer.phone
    address := o.customer.address
    city := o.customer.city
    postalCode := o.customer.postalCode
    country := o.customer.country
    orders := 0
    totalSpend := 0 }

/-- One aggregation step applied to the entry for the email of the order:
bump the order count, add the total, and back-fill each empty field. -/
def updateCustomer (o : Order) (c : Customer) : Customer :=
  { c with
    orders := c.orders + 1
    totalSpend := c.totalSpend + jsOrZero o.total
    name := backfill c.name o.customer.name
    phone := backfill c.phone o.customer.phone
    address := backfill c.address o.customer.address
    city := backfill c.city o.customer.city
    postalCode := backfill c.postalCode o.customer.postalCode
    country := backfill c.country o.customer.country }

/-- Lookup in the insertion-ordered association list standing for the JS
Map. -/
def mapGetC : List (String × Customer) → String → Option Customer
  | [], _ => none
  | (k, v) :: rest, e => if k = e then some v else mapGetC rest e

/-- Update in the insertion-ordered association list standing for the JS
Map: an existing key keeps its position, a new key is appended. -/
def mapSetC : List (String × Customer) → String → Customer → List (String × Customer)
  | [], e, v => [(e, v)]
  | (k, w) :: rest, e, v =>
    if k = e then (k, v) :: rest else (k, w) :: mapSetC rest e v

/-- One iteration of the aggregation loop in the export-customers handler:
skip orders without an email, otherwise fetch or create the entry for the
lowercased email and apply the aggregation step to it. -/
def aggStep (m : List (String × Customer)) (o : Order) : List (String × Customer) :=
  let email := emailKey o
  if email = "" then m
  else
    let existing := (mapGetC m email).getD (freshCustomer email o)
    mapSetC m email (updateCustomer o existing)

/-- The by-email accumulator map after folding the whole order list. -/
def customersByEmail (orders : List Order) : List (String × Customer) :=
  orders.foldl aggStep []

/-- The customer list served by the export-customers handler, in map
insertion order. -/
def aggregateCustomers (orders : List Order) : List Customer :=
  (customersByEmail orders).map Prod.snd

/-- The first non-empty string of a list, or the empty string. -/
def firstNonEmpty : List String → String
  | [] => ""
  | s :: rest => if s = "" then firstNonEmpty rest else s

/-- The orders grouped under a given lowercased email key. -/
def ordersFor (orders : List Order) (e : String) : List Order :=
  orders.filter (fun o => emailKey o == e)

/-- The per-key trace of the aggregation fold: the value the accumulator map
holds at one key, after the orders grouped under that key are applied. -/
def applyOrdersFrom (e : String) : Option Customer → List Order → Option Customer
  | acc, [] => acc
  | acc, o :: os =>
    applyOrdersFrom e (some (updateCustomer o (acc.getD (freshCustomer e o)))) os

/-- Sequential application of aggregation steps to one customer entry. -/
def foldCustomer (os : List Order) (c : Customer) : Customer :=
  os.foldl (fun c o => updateCustomer o c) c

/-! Concrete inputs used to exercise the definitions. -/

def exProduct : Product :=
  { id := "p1", name := "Aloe Cream", category := "skincare", price := 10,
    size := "", color := "" }

def exProductB : Product :=
  { id := "p2", name := "Rose Soap", category := "skincare", price := 5,
    size := "", color := "" }

def exCustomer : CustomerInput :=
  { name := "A", email := "a@x.com", phone := "", address := "1 Main St",
    city := "", postalCode := "", country := "" }

def exCustomerB : CustomerInput :=
  { name := "B", email := "b@y.com", phone := "", address := "2 Side St",
    city := "", postalCode := "", country := "" }

def exCart : List CartItem :=
  [{ productId := "p1", quantity := .num 2, size := "", color := "", clientPrice := 0 }]

def exCartNeg : List CartItem :=
  [{ productId := "p1", quantity := .num (-2), size := "", color := "", clientPrice := 0 }]

def exCartFrac : List CartItem :=
  [{ productId := "p1", quantity := .num (5 / 2), size := "", color := "", clientPrice := 0 }]

def exCartB : List CartItem :=
  [{ productId := "p2", quantity := .num 3, size := "", color := "", clientPrice := 0 }]

def exCartUnknown : List CartItem :=
  [{ productId := "zz", quantity := .num 1, size := "", color := "", clientPrice := 0 }]

def exAdmin : Admin :=
  { id := "admin-1", name := "Root", email := "Admin@Example.com",
    passwordHash := "h1", createdAt := 1 }

/-- The order the checkout of exCart against exProduct at millisecond 5
evaluates to. -/
def exPlacedOrder : Order :=
  { id := "ORD-5", createdAt := 5, total := 20,
    items := [{ productId := "p1", name := "Aloe Cream", category := "skincare",
                price := 10, quantity := 2, size := "Medium", color := "",
                lineTotal := 20 }],
    customer := exCustomer }

def exOrder20 : Order :=
  { id := "ORD-1", createdAt := 1, total := 20, items := [],
    customer := { name := "A", email := "a@x.com", phone := "",
                  address := "1 Main St", city := "", postalCode := "",
                  country := "" } }

def exOrder30 : Order :=
  { id := "ORD-2", createdAt := 2, total := 30, items := [],
    customer := { name := "", email := "A@X.com", phone := "555",
                  address := "", city := "", postalCode := "",
                  country := "" } }

/-! Lemmas about catalog lookup and the checkout item loop. -/

theorem productMapGet_id_aux (pid : String) :
    ∀ (l : List Product) (acc : Option Product),
      (∀ q, acc = some q → q.id = pid) →
      ∀ p, l.foldl (fun acc p => if p.id = pid then some p else acc) acc = some p →
        p.id = pid := by
  intro l
  induction l with
  | nil => intro acc hacc p hp; exact hacc p hp
  | cons x xs ih =>
    intro acc hacc p hp
    refine ih _ ?_ p hp
    intro q hq
    by_cases hx : x.id = pid
    · simp [hx] at hq; subst hq; exact hx
    · simp [hx] at hq; exact hacc q hq

theorem productMapGet_id {products : List Product} {pid : String} {p : Product}
    (h : productMapGet products pid = some p) : p.id = pid := by
  exact productMapGet_id_aux pid products none (by simp) p h

theorem resolveStep_clientPrice (products : List Product) (acc : ℚ × List OrderItem)
    (ci : CartItem) (q : ℚ) :
    resolveStep products acc { ci with clientPrice := q } = resolveStep products acc ci := rfl

theorem resolve_shift (products : List Product) :
    ∀ (cartItems : List CartItem) (t : ℚ) (its : List OrderItem),
      cartItems.foldl (resolveStep products) (t, its) =
        (t + (resolveItems products cartItems).1,
         its ++ (resolveItems products cartItems).2) := by
  intro cartItems
  induction cartItems with
  | nil => intro t its; simp [resolveItems]
  | cons ci rest ih =>
    intro t its
    simp only [resolveItems, List.foldl_cons]
    cases h : productMapGet products ci.productId with
    | none =>
      simp only [resolveStep, h]
      exact ih t its
    | some p =>
      simp only [resolveStep, h]
      rw [ih, ih]
      simp only [Prod.mk.injEq]
      refine ⟨by ring, by simp⟩

theorem resolveItems_cons_none {products : List Product} {ci : CartItem}
    (rest : List CartItem) (h : productMapGet products ci.productId = none) :
    resolveItems products (ci :: rest) = resolveItems products rest := by
  simp [resolveItems, resolveStep, h]

theorem resolveItems_cons_some {products : List Product} {ci : CartItem} {p : Product}
    (rest : List CartItem) (h : productMapGet products ci.productId = some p) :
    resolveItems products (ci :: rest) =
      ((mkOrderItem p ci).lineTotal + (resolveItems products rest).1,
       mkOrderItem p ci :: (resolveItems products rest).2) := by
  have := resolve_shift products rest ((0 : ℚ) + (mkOrderItem p ci).lineTotal)
    ([] ++ [mkOrderItem p ci])
  simp only [resolveItems, List.foldl_cons, resolveStep, h] at this ⊢
  rw [this]
  simp

theorem resolveItems_total_eq_sum (products : List Product) (cartItems : List CartItem) :
    (resolveItems products cartItems).1 =
      ((resolveItems products cartItems).2.map OrderItem.lineTotal).sum := by
  induction cartItems with
  | nil => simp [resolveItems]
  | cons ci rest ih =>
    cases h : productMapGet products ci.productId with
    | none => rw [resolveItems_cons_none rest h]; exact ih
    | some p => rw [resolveItems_cons_some rest h]; simp [ih]

theorem resolveItems_mem (products : List Product) (cartItems : List CartItem) :
    ∀ it ∈ (resolveItems products cartItems).2,
      ∃ p, productMapGet products it.productId = some p ∧
        it.price = p.price ∧ it.lineTotal = p.price * it.quantity ∧
        ∃ ci ∈ cartItems, it.quantity = coerceQty ci.quantity := by
  induction cartItems with
  | nil => simp [resolveItems]
  | cons ci rest ih =>
    intro it hit
    cases h : productMapGet products ci.productId with
    | none =>
      rw [resolveItems_cons_none rest h] at hit
      obtain ⟨p, hp, hprice, hlt, ci2, hci2, hq⟩ := ih it hit
      exact ⟨p, hp, hprice, hlt, ci2, List.mem_cons_of_mem ci hci2, hq⟩
    | some p =>
      rw [resolveItems_cons_some rest h] at hit
      rcases List.mem_cons.mp hit with heq | hmem
      · subst heq
        refine ⟨p, ?_, rfl, rfl, ci, List.mem_cons_self ci rest, rfl⟩
        have hid : p.id = ci.productId := productMapGet_id h
        simpa [mkOrderItem, hid] using h
      · obtain ⟨p2, hp2, hprice, hlt, ci2, hci2, hq⟩ := ih it hmem
        exact ⟨p2, hp2, hprice, hlt, ci2, List.mem_cons_of_mem ci hci2, hq⟩

theorem resolveItems_eq_nil_iff (products : List Product) (cartItems : List CartItem) :
    (resolveItems products cartItems).2 = [] ↔
      ∀ ci ∈ cartItems, productMapGet products ci.productId = none := by
  induction cartItems with
  | nil => simp [resolveItems]
  | cons ci rest ih =>
    cases h : productMapGet products ci.productId with
    | none => rw [resolveItems_cons_none rest h]; simp [h, ih]
    | some p => rw [resolveItems_cons_some rest h]; simp [h]

theorem resolveItems_map_clientPrice (products : List Product)
    (cartItems : List CartItem) (f : CartItem → ℚ) :
    resolveItems products (cartItems.map fun ci => { ci with clientPrice := f ci }) =
      resolveItems products cartItems := by
  simp only [resolveItems, List.foldl_map, resolveStep_clientPrice]

theorem placedOrderOf_map_clientPrice (products : List Product)
    (cartItems : List CartItem) (customer : CustomerInput) (now : Nat)
    (f : CartItem → ℚ) :
    placedOrderOf products (cartItems.map fun ci => { ci with clientPrice := f ci })
      customer now = placedOrderOf products cartItems customer now := by
  simp [placedOrderOf, resolveItems_map_clientPrice]

/-- C1: a placed order prices every line item from the catalog (the line
total is catalog price times coerced quantity), its total is the sum of the
line totals, and a client-supplied price field never enters the computation:
changing it in every cart entry leaves the checkout outcome unchanged. -/
theorem checkout_uses_catalog_prices (products : List Product)
    (cartItems : List CartItem) (customer : CustomerInput)
    (storedOrders rest : List Order) (now : Nat) (order : Order)
    (h : checkout products cartItems customer storedOrders now = (.placed order, rest)) :
    (∀ it ∈ order.items, ∃ p, productMapGet products it.productId = some p ∧
       it.price = p.price ∧ it.lineTotal = p.price * it.quantity) ∧
    order.total = (order.items.map OrderItem.lineTotal).sum ∧
    ∀ f : CartItem → ℚ,
      checkout products (cartItems.map fun ci => { ci with clientPrice := f ci })
        customer storedOrders now =
      checkout products cartItems customer storedOrders now := by
  by_cases h1 : cartItems = []
  · simp [checkout, h1] at h
  by_cases h2 : customer.name = "" ∨ customer.email = "" ∨ customer.address = ""
  · simp [checkout, h1, h2] at h
  by_cases h3 : (resolveItems products cartItems).2 = []
  · simp [checkout, h1, h2, h3] at h
  have horder : order = placedOrderOf products cartItems customer now := by
    simp [checkout, h1, h2, h3] at h
    exact h.1.symm
  refine ⟨?_, ?_, ?_⟩
  · intro it hit
    rw [horder] at hit
    obtain ⟨p, hp, hprice, hlt, _, _, _⟩ := resolveItems_mem products cartItems it hit
    exact ⟨p, hp, hprice, hlt⟩
  · rw [horder]
    exact resolveItems_total_eq_sum products cartItems
  · intro f
    simp [checkout, resolveItems_map_clientPrice, placedOrderOf_map_clientPrice,
      List.map_eq_nil_iff]

/-- Concrete instance of C1: the spec example cart of two units of product p1
at catalog price 10 yields total 20, with the checkout equation discharged by
evaluation. -/
theorem checkout_uses_catalog_prices_witness :
    (∀ it ∈ exPlacedOrder.items, ∃ p, productMapGet [exProduct] it.productId = some p ∧
       it.price = p.price ∧ it.lineTotal = p.price * it.quantity) ∧
    exPlacedOrder.total = (exPlacedOrder.items.map OrderItem.lineTotal).sum ∧
    ∀ f : CartItem → ℚ,
      checkout [exProduct] (exCart.map fun ci => { ci with clientPrice := f ci })
        exCustomer [] 5 =
      checkout [exProduct] exCart exCustomer [] 5 :=
  checkout_uses_catalog_prices [exProduct] exCart exCustomer [] [exPlacedOrder] 5
    exPlacedOrder (by
      norm_num [checkout, placedOrderOf, resolveItems, resolveStep, mkOrderItem,
        productMapGet, coerceQty, orElseStr, snapshotCustomer, exCart, exCustomer,
        exProduct, exPlacedOrder]
      decide)

/-- C6: with a non-empty cart and complete customer information, cart entries
referencing an unknown product are dropped without producing an error: the
checkout rejects with NoValidItems exactly when every entry references an
unknown product, and as soon as one entry resolves it places an order. -/
theorem checkout_noValidItems_iff (products : List Product)
    (cartItems : List CartItem) (customer : CustomerInput)
    (storedOrders : List Order) (now : Nat)
    (hne : cartItems ≠ [])
    (hname : customer.name ≠ "") (hemail : customer.email ≠ "")
    (haddr : customer.address ≠ "") :
    ((checkout products cartItems customer storedOrders now).1 = .noValidItems ↔
      ∀ ci ∈ cartItems, productMapGet products ci.productId = none) ∧
    ((∃ ci ∈ cartItems, (productMapGet products ci.productId).isSome) →
      checkout products cartItems customer storedOrders now =
        (.placed (placedOrderOf products cartItems customer now),
         storedOrders ++ [placedOrderOf products cartItems customer now])) := by
  have h2 : ¬(customer.name = "" ∨ customer.email = "" ∨ customer.address = "") := by
    simp [hname, hemail, haddr]
  constructor
  · rw [← resolveItems_eq_nil_iff products cartItems]
    by_cases h3 : (resolveItems products cartItems).2 = [] <;>
      simp [checkout, hne, h2, h3]
  · rintro ⟨ci, hci, hsome⟩
    have h3 : (resolveItems products cartItems).2 ≠ [] := by
      intro hall
      have hnone := (resolveItems_eq_nil_iff products cartItems).mp hall ci hci
      rw [hnone] at hsome
      simp at hsome
    simp [checkout, hne, h2, h3]

/-- Concrete instance of C6: a cart with one unknown entry and one entry for
product p1 places an order, the unknown entry having been dropped. -/
theorem checkout_noValidItems_iff_witness :
    checkout [exProduct] (exCartUnknown ++ exCart) exCustomer [] 9 =
      (.placed (placedOrderOf [exProduct] (exCartUnknown ++ exCart) exCustomer 9),
       [] ++ [placedOrderOf [exProduct] (exCartUnknown ++ exCart) exCustomer 9]) :=
  (checkout_noValidItems_iff [exProduct] (exCartUnknown ++ exCart) exCustomer [] 9
    (by decide) (by decide) (by decide) (by decide)).2
    ⟨{ productId := "p1", quantity := .num 2, size := "", color := "", clientPrice := 0 },
     by decide, by decide⟩

/-- C5 is refuted: a submitted quantity of -2 is stored as -2 (not positive)
and a submitted quantity of 5/2 is stored as 5/2 (not an integer); the
coercion only replaces absent, non-numeric or zero quantities with 1. -/
theorem quantity_not_positive_counterexample :
    placedQuantities (checkout [exProduct] exCartNeg exCustomer [] 0).1 = [-2] ∧
    ¬ (0 : ℚ) < -2 ∧
    placedQuantities (checkout [exProduct] exCartFrac exCustomer [] 0).1 = [5 / 2] ∧
    ¬ ((5 : ℚ) / 2).den = 1 := by
  refine ⟨?_, by norm_num, ?_, by norm_num [Rat.den]⟩
  · norm_num +decide [checkout, placedQuantities, placedOrder, placedOrderOf,
      resolveItems, resolveStep, mkOrderItem, productMapGet, coerceQty, orElseStr,
      snapshotCustomer, exCartNeg, exCustomer, exProduct]
  · norm_num +decide [checkout, placedQuantities, placedOrder, placedOrderOf,
      resolveItems, resolveStep, mkOrderItem, productMapGet, coerceQty, orElseStr,
      snapshotCustomer, exCartFrac, exCustomer, exProduct]

/-- C5 amended: a quantity that is absent, non-numeric or zero is stored as
1; any other submitted number, negative or fractional included, is stored as
is; every line item of the checkout loop carries the coerced quantity of some
cart entry. -/
theorem quantity_coercion_amended (products : List Product)
    (cartItems : List CartItem) :
    coerceQty .absent = 1 ∧ coerceQty .nonNumeric = 1 ∧ coerceQty (.num 0) = 1 ∧
    (∀ q : ℚ, q ≠ 0 → coerceQty (.num q) = q) ∧
    (∀ it ∈ (resolveItems products cartItems).2,
      ∃ ci ∈ cartItems, it.quantity = coerceQty ci.quantity) := by
  refine ⟨rfl, rfl, by simp [coerceQty], ?_, ?_⟩
  · intro q hq
    simp [coerceQty, hq]
  · intro it hit
    obtain ⟨_, _, _, _, ci, hci, hq⟩ := resolveItems_mem products cartItems it hit
    exact ⟨ci, hci, hq⟩

/-- Concrete instance of the amended C5: a submitted quantity of 3 is kept. -/
theorem quantity_coercion_amended_witness : coerceQty (.num 3) = 3 :=
  (quantity_coercion_amended [] []).2.2.2.1 3 (by norm_num)

/-- C2 is violated by the unguarded read-modify-write in the checkout
handler: under the interleaving where two checkouts both read the ledger
before either writes, both requests succeed but the final ledger holds only
the order of the second writer, and both orders carry the same
millisecond-based identifier. -/
theorem interleaved_checkout_lost_update :
    (interleavedCheckouts [exProduct, exProductB] exCart exCustomer 7 exCartB exCustomerB 7 []).1 =
      .placed (placedOrderOf [exProduct, exProductB] exCart exCustomer 7) ∧
    (interleavedCheckouts [exProduct, exProductB] exCart exCustomer 7 exCartB exCustomerB 7 []).2.1 =
      .placed (placedOrderOf [exProduct, exProductB] exCartB exCustomerB 7) ∧
    (interleavedCheckouts [exProduct, exProductB] exCart exCustomer 7 exCartB exCustomerB 7 []).2.2 =
      [placedOrderOf [exProduct, exProductB] exCartB exCustomerB 7] ∧
    (interleavedCheckouts [exProduct, exProductB] exCart exCustomer 7 exCartB exCustomerB 7 []).2.2.length = 1 ∧
    (placedOrderOf [exProduct, exProductB] exCart exCustomer 7).id =
      (placedOrderOf [exProduct, exProductB] exCartB exCustomerB 7).id ∧
    placedOrderOf [exProduct, exProductB] exCart exCustomer 7 ≠
      placedOrderOf [exProduct, exProductB] exCartB exCustomerB 7 := by
  refine ⟨?_, ?_, ?_, ?_, rfl, ?_⟩
  · norm_num +decide [interleavedCheckouts, checkout, resolveItems, resolveStep,
      mkOrderItem, productMapGet, exCart, exCartB, exCustomer, exCustomerB,
      exProduct, exProductB]
  · norm_num +decide [interleavedCheckouts, checkout, resolveItems, resolveStep,
      mkOrderItem, productMapGet, exCart, exCartB, exCustomer, exCustomerB,
      exProduct, exProductB]
  · norm_num +decide [interleavedCheckouts, checkout, resolveItems, resolveStep,
      mkOrderItem, productMapGet, exCart, exCartB, exCustomer, exCustomerB,
      exProduct, exProductB]
  · norm_num +decide [interleavedCheckouts, checkout, resolveItems, resolveStep,
      mkOrderItem, productMapGet, exCart, exCartB, exCustomer, exCustomerB,
      exProduct, exProductB]
  · norm_num +decide [placedOrderOf, resolveItems, resolveStep, mkOrderItem,
      productMapGet, coerceQty, orElseStr, snapshotCustomer, exCart, exCartB,
      exCustomer, exCustomerB, exProduct, exProductB, Order.mk.injEq]

/-- C4 is refuted for the local implementation: a failed backing write in
writeJson is logged and swallowed, so the caller sees a normal return rather
than a storage failure. -/
theorem writeJson_swallows_failure :
    writeJson .failed = .success ∧ writeJson .failed ≠ .storageFailure := by
  decide

/-- C4 amended: only the remote blob implementation reports a failed backing
write to the caller as a storage failure; the local file implementation
returns normally regardless; for both implementations a failed or absent
backing read yields the empty collection rather than an error. -/
theorem storage_write_read_outcomes :
    writeBlobJson .failed = .storageFailure ∧
    writeBlobJson .ok = .success ∧
    writeJson .failed = .success ∧
    writeJson .ok = .success ∧
    @readJson Order .missing [] = [] ∧
    @readJson Order .failed [] = [] ∧
    @readBlobJson Order .missing [] = [] ∧
    @readBlobJson Order .failed [] = [] := by
  decide

/-- C10: with no configured sync secret, the export endpoint answers
Unauthorized for every caller-supplied secret, the empty one included, and
for any stored collections. -/
theorem dashboardSync_no_secret_unauthorized :
    ∀ (provided : String) (orders : List Order) (admins : List Admin),
      dashboardSync none provided orders admins = .unauthorized := by
  intro provided orders admins
  simp [dashboardSync]

/-- C3: an authenticated export of the origin ledger L and directory D,
imported at a destination, replaces both destination collections with
exactly L and D, discarding every destination-only record. -/
theorem sync_round_trip (L : List Order) (D : List Admin) (st0 : GatewayState)
    (s baseUrl : String) (hs : s ≠ "") (hb : baseUrl ≠ "") :
    dashboardSync (some s) s L D = .payload L D ∧
    syncFromProduction false baseUrl (some s) (some ⟨some L, some D⟩) st0 =
      (.synced L.length D.length, ⟨L, D⟩) := by
  constructor
  · simp [dashboardSync, hs]
  · simp [syncFromProduction, hb, hs, coerceArray]

/-- Concrete instance of C3: the destination held one order and no admins of
its own; after the import it holds exactly the origin collections. -/
theorem sync_round_trip_witness :
    dashboardSync (some "sekrit") "sekrit" [exOrder20] [exAdmin] =
      .payload [exOrder20] [exAdmin] ∧
    syncFromProduction false "https://x" (some "sekrit")
      (some ⟨some [exOrder20], some [exAdmin]⟩) ⟨[exOrder30], []⟩ =
      (.synced 1 1, ⟨[exOrder20], [exAdmin]⟩) :=
  sync_round_trip [exOrder20] [exAdmin] ⟨[exOrder30], []⟩ "sekrit" "https://x"
    (by decide) (by decide)

/-- C7: a signup whose email matches an existing account case-insensitively
fails with the duplicate-email outcome and leaves the directory unchanged,
so the case-insensitive email uniqueness invariant is preserved. -/
theorem signup_duplicate_email (admins : List Admin) (name email password : String)
    (hash : String → String) (now : Nat)
    (hn : name ≠ "") (he : email ≠ "") (hp : password ≠ "")
    (a : Admin) (ha : a ∈ admins) (hdup : lowerStr a.email = lowerStr email) :
    signup admins name email password hash now = (.duplicateEmail, admins) ∧
    ((admins.Pairwise fun x y => lowerStr x.email ≠ lowerStr y.email) →
      (signup admins name email password hash now).2.Pairwise
        fun x y => lowerStr x.email ≠ lowerStr y.email) := by
  have hcond : ¬(name = "" ∨ email = "" ∨ password = "") := by simp [hn, he, hp]
  have hfind : (admins.find? fun x => lowerStr x.email == lowerStr email).isSome := by
    rw [List.find?_isSome]
    exact ⟨a, ha, by simp [hdup]⟩
  obtain ⟨b, hb⟩ := Option.isSome_iff_exists.mp hfind
  have hres : signup admins name email password hash now = (.duplicateEmail, admins) := by
    simp [signup, hcond, hb]
  exact ⟨hres, fun hpw => by rw [hres]; exact hpw⟩

/-- Concrete instance of C7: signing up with admin@example.com while the
directory holds Admin@Example.com fails and changes nothing. -/
theorem signup_duplicate_email_witness :
    signup [exAdmin] "Eve" "admin@example.com" "pw" (fun p => p) 2 =
      (.duplicateEmail, [exAdmin]) ∧
    (([exAdmin].Pairwise fun x y => lowerStr x.email ≠ lowerStr y.email) →
      (signup [exAdmin] "Eve" "admin@example.com" "pw" (fun p => p) 2).2.Pairwise
        fun x y => lowerStr x.email ≠ lowerStr y.email) :=
  signup_duplicate_email [exAdmin] "Eve" "admin@example.com" "pw" (fun p => p) 2
    (by decide) (by decide) (by decide) exAdmin (by decide) (by decide)

/-- C8: the login handler returns the same InvalidCredentials outcome for an
unknown email as for a known email whose password comparison fails; the two
failure causes are indistinguishable to the caller. -/
theorem login_indistinguishable (admins : List Admin)
    (email1 password1 email2 password2 : String)
    (compareHash : String → String → Bool)
    (h1e : email1 ≠ "") (h1p : password1 ≠ "")
    (h2e : email2 ≠ "") (h2p : password2 ≠ "")
    (hunknown : ∀ a ∈ admins, lowerStr a.email ≠ lowerStr email1)
    (a : Admin)
    (hfound : (admins.find? fun x => lowerStr x.email == lowerStr email2) = some a)
    (hwrong : compareHash password2 a.passwordHash = false) :
    login admins email1 password1 compareHash = .invalidCredentials ∧
    login admins email2 password2 compareHash = .invalidCredentials ∧
    login admins email1 password1 compareHash =
      login admins email2 password2 compareHash := by
  have hc1 : ¬(email1 = "" ∨ password1 = "") := by simp [h1e, h1p]
  have hc2 : ¬(email2 = "" ∨ password2 = "") := by simp [h2e, h2p]
  have hnone : (admins.find? fun x => lowerStr x.email == lowerStr email1) = none := by
    rw [List.find?_eq_none]
    intro x hx
    simp [hunknown x hx]
  refine ⟨?_, ?_, ?_⟩
  · simp [login, hc1, hnone]
  · simp [login, hc2, hfound, hwrong]
  · simp [login, hc1, hc2, hnone, hfound, hwrong]

/-- Concrete instance of C8: a ghost email and a wrong password against the
stored account produce the same outcome. -/
theorem login_indistinguishable_witness :
    login [exAdmin] "ghost@x.com" "pw" (fun _ _ => false) = .invalidCredentials ∧
    login [exAdmin] "admin@example.com" "pw" (fun _ _ => false) = .invalidCredentials ∧
    login [exAdmin] "ghost@x.com" "pw" (fun _ _ => false) =
      login [exAdmin] "admin@example.com" "pw" (fun _ _ => false) :=
  login_indistinguishable [exAdmin] "ghost@x.com" "pw" "admin@example.com" "pw"
    (fun _ _ => false) (by decide) (by decide) (by decide) (by decide)
    (by decide) exAdmin (by decide) rfl

/-! Lemmas about the customer aggregation fold. -/

theorem jsOrZero_eq (q : ℚ) : jsOrZero q = q := by
  unfold jsOrZero
  split <;> simp_all

theorem backfill_self (x : String) : backfill x x = x := by
  unfold backfill
  split <;> simp_all

theorem mapGetC_mapSetC (e e2 : String) (v : Customer) :
    ∀ m : List (String × Customer),
      mapGetC (mapSetC m e v) e2 = if e = e2 then some v else mapGetC m e2 := by
  intro m
  induction m with
  | nil => simp [mapSetC, mapGetC]
  | cons kv rest ih =>
    obtain ⟨k, w⟩ := kv
    by_cases hk : k = e
    · subst hk
      simp only [mapSetC, if_pos rfl, mapGetC]
      by_cases h2 : k = e2
      · simp [h2]
      · simp [h2, mapGetC]
    · simp only [mapSetC, if_neg hk, mapGetC]
      by_cases h2 : k = e2
      · subst h2
        rw [if_neg (Ne.symm hk)]
        simp [mapGetC]
      · simp [mapGetC, h2, ih]

theorem mapGetC_aggStep (m : List (String × Customer)) (o : Order) (e : String)
    (he : e ≠ "") :
    mapGetC (aggStep m o) e =
      if emailKey o = e then
        some (updateCustomer o ((mapGetC m e).getD (freshCustomer e o)))
      else mapGetC m e := by
  by_cases hk : emailKey o = ""
  · have hne : emailKey o ≠ e := by rw [hk]; exact Ne.symm he
    rw [if_neg hne]
    simp [aggStep, hk]
  · simp only [aggStep, if_neg hk]
    rw [mapGetC_mapSetC]
    by_cases hoe : emailKey o = e
    · subst hoe; simp
    · simp [hoe]

theorem mapGetC_foldl (e : String) (he : e ≠ "") :
    ∀ (orders : List Order) (m : List (String × Customer)),
      mapGetC (orders.foldl aggStep m) e =
        applyOrdersFrom e (mapGetC m e) (ordersFor orders e) := by
  intro orders
  induction orders with
  | nil => intro m; simp [ordersFor, applyOrdersFrom]
  | cons o os ih =>
    intro m
    by_cases hoe : emailKey o = e
    · simp only [List.foldl_cons, ih]
      rw [mapGetC_aggStep m o e he, if_pos hoe]
      simp [ordersFor, List.filter_cons, hoe, applyOrdersFrom]
    · simp only [List.foldl_cons, ih]
      rw [mapGetC_aggStep m o e he, if_neg hoe]
      simp [ordersFor, List.filter_cons, hoe]

theorem applyOrdersFrom_some (e : String) :
    ∀ (os : List Order) (c : Customer),
      applyOrdersFrom e (some c) os = some (foldCustomer os c) := by
  intro os
  induction os with
  | nil => intro c; simp [applyOrdersFrom, foldCustomer]
  | cons o os ih =>
    intro c
    simp only [applyOrdersFrom, Option.getD_some, ih, foldCustomer, List.foldl_cons]

theorem foldCustomer_email :
    ∀ (os : List Order) (c : Customer), (foldCustomer os c).email = c.email := by
  intro os
  induction os with
  | nil => intro c; rfl
  | cons o os ih =>
    intro c
    have : foldCustomer (o :: os) c = foldCustomer os (updateCustomer o c) := rfl
    rw [this, ih]
    rfl

theorem foldCustomer_orders :
    ∀ (os : List Order) (c : Customer),
      (foldCustomer os c).orders = c.orders + os.length := by
  intro os
  induction os with
  | nil => intro c; rfl
  | cons o os ih =>
    intro c
    have : foldCustomer (o :: os) c = foldCustomer os (updateCustomer o c) := rfl
    rw [this, ih]
    simp [updateCustomer]
    try omega

theorem foldCustomer_totalSpend :
    ∀ (os : List Order) (c : Customer),
      (foldCustomer os c).totalSpend = c.totalSpend + (os.map Order.total).sum := by
  intro os
  induction os with
  | nil => intro c; simp [foldCustomer]
  | cons o os ih =>
    intro c
    have : foldCustomer (o :: os) c = foldCustomer os (updateCustomer o c) := rfl
    rw [this, ih]
    simp [updateCustomer, jsOrZero_eq]
    try ring

theorem foldCustomer_field (get : Customer → String) (getO : Order → String)
    (hupd : ∀ (o : Order) (c : Customer),
      get (updateCustomer o c) = backfill (get c) (getO o)) :
    ∀ (os : List Order) (c : Customer),
      get (foldCustomer os c) =
        if get c = "" then firstNonEmpty (os.map getO) else get c := by
  intro os
  induction os with
  | nil =>
    intro c
    simp only [foldCustomer, List.foldl_nil, List.map_nil, firstNonEmpty]
    split <;> simp_all
  | cons o os ih =>
    intro c
    have hstep : foldCustomer (o :: os) c = foldCustomer os (updateCustomer o c) := rfl
    rw [hstep, ih, hupd]
    simp only [List.map_cons, firstNonEmpty]
    by_cases hc : get c = "" <;> by_cases ho : getO o = "" <;>
      simp [backfill, hc, ho]

theorem mem_keys_mapSetC (e k : String) (v : Customer) :
    ∀ m : List (String × Customer),
      k ∈ (mapSetC m e v).map Prod.fst → k = e ∨ k ∈ m.map Prod.fst := by
  intro m
  induction m with
  | nil => simp [mapSetC]
  | cons kv rest ih =>
    obtain ⟨k2, w⟩ := kv
    by_cases hk2 : k2 = e
    · subst hk2
      simp [mapSetC]
      try tauto
    · simp only [mapSetC, if_neg hk2, List.map_cons, List.mem_cons]
      rintro (h | h)
      · right; simp [h]
      · rcases ih h with h2 | h2
        · left; exact h2
        · right; simp [h2]

theorem nodup_keys_mapSetC (e : String) (v : Customer) :
    ∀ m : List (String × Customer),
      (m.map Prod.fst).Nodup → ((mapSetC m e v).map Prod.fst).Nodup := by
  intro m
  induction m with
  | nil => simp [mapSetC]
  | cons kv rest ih =>
    obtain ⟨k2, w⟩ := kv
    intro hnd
    simp only [List.map_cons, List.nodup_cons] at hnd
    by_cases hk2 : k2 = e
    · subst hk2
      simp only [mapSetC, eq_self_iff_true, if_true, List.map_cons, List.nodup_cons]
      exact hnd
    · simp only [mapSetC, if_neg hk2, List.map_cons, List.nodup_cons]
      refine ⟨?_, ih hnd.2⟩
      intro hmem
      rcases mem_keys_mapSetC e k2 v rest hmem with h | h
      · exact hk2 h
      · exact hnd.1 h

theorem nodup_keys_aggStep (m : List (String × Customer)) (o : Order)
    (hnd : (m.map Prod.fst).Nodup) : ((aggStep m o).map Prod.fst).Nodup := by
  by_cases hk : emailKey o = ""
  · simpa [aggStep, hk] using hnd
  · simp only [aggStep, if_neg hk]
    exact nodup_keys_mapSetC _ _ m hnd

theorem nodup_keys_customersByEmail (orders : List Order) :
    ((customersByEmail orders).map Prod.fst).Nodup := by
  have key : ∀ (os : List Order) (m : List (String × Customer)),
      (m.map Prod.fst).Nodup → ((os.foldl aggStep m).map Prod.fst).Nodup := by
    intro os
    induction os with
    | nil => intro m h; exact h
    | cons o os ih =>
      intro m h
      exact ih (aggStep m o) (nodup_keys_aggStep m o h)
  exact key orders [] (by simp)

/-- C9: the aggregation groups orders by lowercased email (one map entry per
distinct non-empty key); the entry for a key counts exactly the orders of
that key, sums exactly their totals, and carries, in each remaining field,
the first non-empty value among those orders in scan order. -/
theorem aggregate_by_email (orders : List Order) (e : String) (he : e ≠ "")
    (hex : ordersFor orders e ≠ []) :
    ((customersByEmail orders).map Prod.fst).Nodup ∧
    ∃ c, mapGetC (customersByEmail orders) e = some c ∧
      c.email = e ∧
      c.orders = (ordersFor orders e).length ∧
      c.totalSpend = ((ordersFor orders e).map Order.total).sum ∧
      c.name = firstNonEmpty ((ordersFor orders e).map fun o => o.customer.name) ∧
      c.phone = firstNonEmpty ((ordersFor orders e).map fun o => o.customer.phone) ∧
      c.address = firstNonEmpty ((ordersFor orders e).map fun o => o.customer.address) ∧
      c.city = firstNonEmpty ((ordersFor orders e).map fun o => o.customer.city) ∧
      c.postalCode =
        firstNonEmpty ((ordersFor orders e).map fun o => o.customer.postalCode) ∧
      c.country = firstNonEmpty ((ordersFor orders e).map fun o => o.customer.country) := by
  refine ⟨nodup_keys_customersByEmail orders, ?_⟩
  obtain ⟨o, os, hoos⟩ : ∃ o os, ordersFor orders e = o :: os := by
    cases h : ordersFor orders e with
    | nil => exact absurd h hex
    | cons o os => exact ⟨o, os, rfl⟩
  have hkey : mapGetC (customersByEmail orders) e =
      applyOrdersFrom e none (ordersFor orders e) := by
    have := mapGetC_foldl e he orders []
    simpa [customersByEmail, mapGetC] using this
  rw [hoos] at hkey
  simp only [applyOrdersFrom, Option.getD_none] at hkey
  rw [applyOrdersFrom_some] at hkey
  set c0 := updateCustomer o (freshCustomer e o) with hc0
  refine ⟨foldCustomer os c0, hkey, ?_, ?_, ?_, ?_, ?_, ?_, ?_, ?_, ?_⟩
  · rw [foldCustomer_email]
    simp [hc0, updateCustomer, freshCustomer]
  · rw [foldCustomer_orders, hoos]
    simp [hc0, updateCustomer, freshCustomer]
    omega
  · rw [foldCustomer_totalSpend, hoos]
    simp [hc0, updateCustomer, freshCustomer, jsOrZero_eq]
  · rw [foldCustomer_field (fun c => c.name) (fun o => o.customer.name)
      (fun o c => rfl) os c0, hoos]
    simp only [hc0, updateCustomer, freshCustomer, backfill_self, List.map_cons,
      firstNonEmpty]
  · rw [foldCustomer_field (fun c => c.phone) (fun o => o.customer.phone)
      (fun o c => rfl) os c0, hoos]
    simp only [hc0, updateCustomer, freshCustomer, backfill_self, List.map_cons,
      firstNonEmpty]
  · rw [foldCustomer_field (fun c => c.address) (fun o => o.customer.address)
      (fun o c => rfl) os c0, hoos]
    simp only [hc0, updateCustomer, freshCustomer, backfill_self, List.map_cons,
      firstNonEmpty]
  · rw [foldCustomer_field (fun c => c.city) (fun o => o.customer.city)
      (fun o c => rfl) os c0, hoos]
    simp only [hc0, updateCustomer, freshCustomer, backfill_self, List.map_cons,
      firstNonEmpty]
  · rw [foldCustomer_field (fun c => c.postalCode) (fun o => o.customer.postalCode)
      (fun o c => rfl) os c0, hoos]
    simp only [hc0, updateCustomer, freshCustomer, backfill_self, List.map_cons,
      firstNonEmpty]
  · rw [foldCustomer_field (fun c => c.country) (fun o => o.customer.country)
      (fun o c => rfl) os c0, hoos]
    simp only [hc0, updateCustomer, freshCustomer, backfill_self, List.map_cons,
      firstNonEmpty]

/-- Concrete instance of C9, the spec example: two orders for a@x.com (one
written A@X.com) with totals 20 and 30 aggregate into one customer with two
orders, total spend 50, and first-non-empty fields. -/
theorem aggregate_by_email_witness :
    ((customersByEmail [exOrder20, exOrder30]).map Prod.fst).Nodup ∧
    ∃ c, mapGetC (customersByEmail [exOrder20, exOrder30]) "a@x.com" = some c ∧
      c.email = "a@x.com" ∧ c.orders = 2 ∧ c.totalSpend = 50 ∧
      c.name = "A" ∧ c.phone = "555" ∧ c.address = "1 Main St" ∧
      c.city = "" ∧ c.postalCode = "" ∧ c.country = "" := by
  obtain ⟨hnd, c, hc, hemail, horders, hspend, hname, hphone, haddr, hcity, hpc, hcountry⟩ :=
    aggregate_by_email [exOrder20, exOrder30] "a@x.com" (by decide) (by decide)
  refine ⟨hnd, c, hc, hemail, ?_, ?_, ?_, ?_, ?_, ?_, ?_, ?_⟩
  · rw [horders]; decide
  · rw [hspend]
    norm_num +decide [ordersFor, emailKey, lowerStr, exOrder20, exOrder30]
  · rw [hname]; decide
  · rw [hphone]; decide
  · rw [haddr]; decide
  · rw [hcity]; decide
  · rw [hpc]; decide
  · rw [hcountry]; decide

end Felicia
